import Mathlib

/-!
Verification of the menu-translation backend (`src/app.py`,
`src/services/forex_service.py`) against its specification.

The Python code is shallowly embedded: HTTP upstreams, the image-search
client and the lookup tables of third-party libraries are oracles passed as
function arguments; the joblib memoization cache is explicit state; floats
are modelled as rationals; exceptions are `Except` values.
-/

namespace Menu

/-- Association-list lookup with decidable key equality, used to model Python
dict lookups (`data["rates"][to_currency]`, `images_data[name]`). -/
def alookup {α β : Type} [DecidableEq α] : List (α × β) → α → Option β
  | [], _ => none
  | (k, v) :: rest, key => if key = k then some v else alookup rest key

/-- Python dict assignment `d[k] = v`: overwrite the entry in place if the key
exists, otherwise append at the end (insertion order is preserved). -/
def dictInsert {β : Type} : List (String × β) → String → β → List (String × β)
  | [], k, v => [(k, v)]
  | (k0, v0) :: rest, k, v =>
    if k0 = k then (k0, v) :: rest else (k0, v0) :: dictInsert rest k v

theorem alookup_dictInsert_self {β : Type} (l : List (String × β)) (k : String) (v : β) :
    alookup (dictInsert l k v) k = some v := by
  induction l with
  | nil => simp [dictInsert, alookup]
  | cons hd tl ih =>
    obtain ⟨k0, v0⟩ := hd
    by_cases h : k0 = k
    · simp [dictInsert, alookup, h]
    · simp only [dictInsert, if_neg h]
      have : ¬ k = k0 := fun hk => h hk.symm
      simp [alookup, this, ih]

theorem alookup_dictInsert_ne {β : Type} (l : List (String × β)) (k k' : String) (v : β)
    (h : k' ≠ k) : alookup (dictInsert l k v) k' = alookup l k' := by
  induction l with
  | nil => simp [dictInsert, alookup, h]
  | cons hd tl ih =>
    obtain ⟨k0, v0⟩ := hd
    by_cases h0 : k0 = k
    · subst h0
      simp [dictInsert, alookup, h]
    · simp [dictInsert, alookup, if_neg h0, ih]

/-! ## Currency Rate Client (`src/services/forex_service.py`) -/

/-- Response of the upstream rate provider as observed by
`get_exchange_rate` after `requests.get(url, timeout=5)`: an HTTP status and,
when the body decodes to JSON holding a usable `"rates"` map, that map
(`none` models both a body that is not JSON and a payload without a
`"rates"` dictionary). -/
structure RateResponse where
  status : Nat
  rates : Option (List (String × ℚ))
deriving Repr, DecidableEq

/-- Condition under which `response.raise_for_status()` raises `HTTPError`
(and hence `requests.RequestException`): a 4xx or 5xx status code. -/
def RateResponse.raisesForStatus (r : RateResponse) : Bool :=
  400 ≤ r.status && r.status < 600

/-- Stated from the spec sentence "on non-2xx response": whether the status
code is in the 2xx success class. Used only to compare the spec's wording
with the code's actual `raise_for_status` gate. -/
def RateResponse.is2xx (r : RateResponse) : Bool :=
  200 ≤ r.status && r.status < 300

/-- Body of `get_exchange_rate` past the `from_currency == to_currency` fast
path: one GET to `/v4/latest/{from_currency}` (modelled by the oracle `net`),
`raise_for_status`, then payload validation. Every `raise` inside the `try`
block is caught by the `except` clauses and re-raised as a `ValueError`
whose message wraps the original one; `Except.error` carries that message. -/
def rate_request (net : String → RateResponse) (from_currency to_currency : String) :
    Except String ℚ :=
  let response := net from_currency
  if response.raisesForStatus then
    Except.error ("Failed to fetch exchange rate: HTTP " ++ toString response.status)
  else
    match response.rates with
    | none =>
      Except.error ("Invalid exchange rate response: Currency " ++ to_currency ++
        " not found in exchange rate data")
    | some rates =>
      match alookup rates to_currency with
      | none =>
        Except.error ("Invalid exchange rate response: Currency " ++ to_currency ++
          " not found in exchange rate data")
      | some rate =>
        if rate ≤ 0 then
          Except.error ("Invalid exchange rate response: Invalid exchange rate: " ++
            toString rate)
        else
          Except.ok rate

/-- Uncached `get_exchange_rate` body together with the number of upstream
HTTP GETs it performs (0 on the identical-currency fast path, 1 otherwise). -/
def fetch_exchange_rate (net : String → RateResponse) (from_currency to_currency : String) :
    Except String ℚ × Nat :=
  if from_currency = to_currency then (Except.ok 1, 0)
  else (rate_request net from_currency to_currency, 1)

/-- The joblib `Memory` cache backing `@memory.cache get_exchange_rate`:
finished return values keyed by the argument pair. joblib does not cache
raised exceptions, so only `ok` results are stored. -/
abbrev RateCache := List ((String × String) × ℚ)

/-- Cached `get_exchange_rate(from_currency, to_currency)`: on a cache hit
the stored value is returned with no upstream call; on a miss the body runs,
and a successful result is stored. Returns (result, cache after the call,
number of upstream HTTP GETs performed by this call). -/
def get_exchange_rate (net : String → RateResponse) (cache : RateCache)
    (from_currency to_currency : String) : Except String ℚ × RateCache × Nat :=
  match alookup cache (from_currency, to_currency) with
  | some rate => (Except.ok rate, cache, 0)
  | none =>
    match fetch_exchange_rate net from_currency to_currency with
    | (Except.ok rate, calls) =>
      (Except.ok rate, ((from_currency, to_currency), rate) :: cache, calls)
    | (Except.error e, calls) => (Except.error e, cache, calls)

/-- A cache state is well formed for a given upstream when each stored entry
is the value the function body would compute for that key, i.e. the cache
was populated by `get_exchange_rate` itself. -/
def CacheWF (net : String → RateResponse) (cache : RateCache) : Prop :=
  ∀ p r, (p, r) ∈ cache → (fetch_exchange_rate net p.1 p.2).1 = Except.ok r

theorem alookup_mem {α β : Type} [DecidableEq α] (l : List (α × β)) (k : α) (v : β)
    (h : alookup l k = some v) : (k, v) ∈ l := by
  induction l with
  | nil => simp [alookup] at h
  | cons hd tl ih =>
    obtain ⟨k0, v0⟩ := hd
    by_cases hk : k = k0
    · subst hk
      simp [alookup] at h
      simp [h]
    · simp [alookup, hk] at h
      exact List.mem_cons_of_mem _ (ih h)

theorem rate_request_pos (net : String → RateResponse) (f t : String) (r : ℚ)
    (h : rate_request net f t = Except.ok r) : 0 < r := by
  unfold rate_request at h
  by_cases hs : (net f).raisesForStatus
  · simp [hs] at h
  · simp only [hs, Bool.false_eq_true, if_false] at h
    cases hrates : (net f).rates with
    | none => simp [hrates] at h
    | some rates =>
      simp only [hrates] at h
      cases hlook : alookup rates t with
      | none => simp [hlook] at h
      | some rate =>
        simp only [hlook] at h
        by_cases hle : rate ≤ 0
        · simp [hle] at h
        · simp only [hle, if_false] at h
          cases h
          exact lt_of_not_le hle

theorem fetch_exchange_rate_pos (net : String → RateResponse) (f t : String) (r : ℚ)
    (h : (fetch_exchange_rate net f t).1 = Except.ok r) : 0 < r := by
  unfold fetch_exchange_rate at h
  by_cases hft : f = t
  · simp [hft] at h
    simp [← h]
  · simp only [hft, if_false] at h
    exact rate_request_pos net f t r h

theorem get_exchange_rate_pos (net : String → RateResponse) (cache : RateCache)
    (f t : String) (r : ℚ) (hwf : CacheWF net cache)
    (h : (get_exchange_rate net cache f t).1 = Except.ok r) : 0 < r := by
  unfold get_exchange_rate at h
  cases halo : alookup cache (f, t) with
  | some v =>
    rw [halo] at h
    simp at h
    subst h
    exact fetch_exchange_rate_pos net f t v (hwf (f, t) v (alookup_mem _ _ _ halo))
  | none =>
    rw [halo] at h
    cases hfr : fetch_exchange_rate net f t with
    | mk res calls =>
      cases res with
      | ok v =>
        rw [hfr] at h
        simp at h
        subst h
        exact fetch_exchange_rate_pos net f t v (by rw [hfr])
      | error e =>
        rw [hfr] at h
        simp at h

theorem data_ne_nil_append (a b : String) (h : a.data ≠ []) : (a ++ b).data ≠ [] := by
  rw [String.data_append]
  intro hc
  exact h (List.append_eq_nil.mp hc).1

theorem ne_empty_of_data_ne_nil (a : String) (h : a.data ≠ []) : a ≠ "" := by
  intro hc
  subst hc
  simp at h

theorem rate_request_bad_error (net : String → RateResponse) (f t : String)
    (hbad : (net f).raisesForStatus = true ∨
            (net f).rates = none ∨
            (∃ rs, (net f).rates = some rs ∧ alookup rs t = none) ∨
            (∃ rs r, (net f).rates = some rs ∧ alookup rs t = some r ∧ r ≤ 0)) :
    ∃ msg, rate_request net f t = Except.error msg ∧ msg ≠ "" := by
  have hhttp : (net f).raisesForStatus = true →
      ∃ msg, rate_request net f t = Except.error msg ∧ msg ≠ "" := by
    intro hs
    refine ⟨"Failed to fetch exchange rate: HTTP " ++ toString (net f).status,
      by simp [rate_request, hs], ?_⟩
    exact ne_empty_of_data_ne_nil _ (data_ne_nil_append _ _ (by decide))
  have hnotfound : (net f).raisesForStatus = false →
      ((net f).rates = none ∨ (∃ rs, (net f).rates = some rs ∧ alookup rs t = none)) →
      ∃ msg, rate_request net f t = Except.error msg ∧ msg ≠ "" := by
    intro hs hr
    refine ⟨"Invalid exchange rate response: Currency " ++ t ++
      " not found in exchange rate data", ?_, ?_⟩
    · rcases hr with hrates | ⟨rs, hrs, hlook⟩
      · simp [rate_request, hs, hrates]
      · simp [rate_request, hs, hrs, hlook]
    · exact ne_empty_of_data_ne_nil _
        (data_ne_nil_append _ _ (data_ne_nil_append _ _ (by decide)))
  rcases hbad with hs | hrates | ⟨rs, hrs, hlook⟩ | ⟨rs, r, hrs, hlook, hle⟩
  · exact hhttp hs
  · cases hs : (net f).raisesForStatus
    · exact hnotfound hs (Or.inl hrates)
    · exact hhttp hs
  · cases hs : (net f).raisesForStatus
    · exact hnotfound hs (Or.inr ⟨rs, hrs, hlook⟩)
    · exact hhttp hs
  · cases hs : (net f).raisesForStatus
    · refine ⟨"Invalid exchange rate response: Invalid exchange rate: " ++ toString r,
        by simp [rate_request, hs, hrs, hlook, hle], ?_⟩
      exact ne_empty_of_data_ne_nil _ (data_ne_nil_append _ _ (by decide))
    · exact hhttp hs

theorem get_exchange_rate_nil_of_rate_request (net : String → RateResponse) (f t : String)
    (e : String) (hne : f ≠ t) (h : rate_request net f t = Except.error e) :
    (get_exchange_rate net [] f t).1 = Except.error e := by
  unfold get_exchange_rate
  have hfetch : fetch_exchange_rate net f t = (Except.error e, 1) := by
    unfold fetch_exchange_rate
    simp [hne, h]
  simp [alookup, hfetch]

/-- C1 counterexample: the claim quantifies over every non-2xx response, but
`raise_for_status` only rejects 4xx/5xx statuses. A 300 response carrying a
well-formed rate map passes the gate, so `get_exchange_rate("USD", "EUR")`
returns the rate 2 instead of failing. -/
theorem C1_counterexample_non2xx_success :
    (RateResponse.mk 300 (some [("EUR", (2 : ℚ))])).is2xx = false ∧
    ("USD" : String) ≠ "EUR" ∧
    (get_exchange_rate (fun _ => RateResponse.mk 300 (some [("EUR", (2 : ℚ))]))
      [] "USD" "EUR").1 = Except.ok 2 :=
  ⟨rfl, by decide, rfl⟩

/-- C1 (amended): for `from ≠ to`, whenever the rate provider's response has a
4xx or 5xx status (the statuses `raise_for_status` rejects; statuses outside
that range pass the gate even when they are not 2xx) or is malformed (no rate
map, target code absent from it, or non-positive numeric rate for the target),
`get_exchange_rate` on a fresh cache fails with a `ValueError` carrying a
nonempty human-readable message; and `get_exchange_rate` never returns a
non-positive or missing rate from any reachable cache state. -/
theorem C1_rate_error_handling (net : String → RateResponse) (f t : String)
    (hne : f ≠ t)
    (hbad : (net f).raisesForStatus = true ∨
            (net f).rates = none ∨
            (∃ rs, (net f).rates = some rs ∧ alookup rs t = none) ∨
            (∃ rs r, (net f).rates = some rs ∧ alookup rs t = some r ∧ r ≤ 0)) :
    (∃ msg, (get_exchange_rate net [] f t).1 = Except.error msg ∧ msg ≠ "") ∧
    (∀ (net' : String → RateResponse) (cache : RateCache) (f' t' : String) (r : ℚ),
      CacheWF net' cache → (get_exchange_rate net' cache f' t').1 = Except.ok r → 0 < r) := by
  constructor
  · obtain ⟨msg, hmsg, hmsgne⟩ := rate_request_bad_error net f t hbad
    exact ⟨msg, get_exchange_rate_nil_of_rate_request net f t msg hne hmsg, hmsgne⟩
  · intro net' cache f' t' r hwf h
    exact get_exchange_rate_pos net' cache f' t' r hwf h

/-- Witness for C1: a 404 response makes the concrete lookup fail, and the
positivity clause is obtained at the same instantiation. -/
theorem C1_rate_error_handling_witness :
    (∃ msg, (get_exchange_rate (fun _ => RateResponse.mk 404 none) [] "USD" "EUR").1 =
        Except.error msg ∧ msg ≠ "") ∧
    (∀ (net' : String → RateResponse) (cache : RateCache) (f' t' : String) (r : ℚ),
      CacheWF net' cache → (get_exchange_rate net' cache f' t').1 = Except.ok r → 0 < r) :=
  C1_rate_error_handling (fun _ => RateResponse.mk 404 none) "USD" "EUR"
    (by decide) (Or.inl (by decide))

/-- C2: for identical source and target codes, `get_exchange_rate` returns
exactly 1.0 and performs no upstream HTTP request, from any cache state the
function itself can have produced. -/
theorem C2_identity_rate (net : String → RateResponse) (cache : RateCache) (c : String)
    (hwf : CacheWF net cache) :
    (get_exchange_rate net cache c c).1 = Except.ok 1 ∧
    (get_exchange_rate net cache c c).2.2 = 0 := by
  have hfetch : fetch_exchange_rate net c c = (Except.ok 1, 0) := by
    simp [fetch_exchange_rate]
  unfold get_exchange_rate
  cases halo : alookup cache (c, c) with
  | some v =>
    have hv := hwf (c, c) v (alookup_mem _ _ _ halo)
    rw [hfetch] at hv
    simp at hv
    subst hv
    simp
  | none =>
    simp [hfetch]

/-- Witness for C2 on the empty cache. -/
theorem C2_identity_rate_witness :
    (get_exchange_rate (fun _ => RateResponse.mk 200 none) [] "EUR" "EUR").1 = Except.ok 1 ∧
    (get_exchange_rate (fun _ => RateResponse.mk 200 none) [] "EUR" "EUR").2.2 = 0 :=
  C2_identity_rate (fun _ => RateResponse.mk 200 none) [] "EUR"
    (by intro p r h; simp at h)

/-- C8: after a first successful `get_exchange_rate(from, to)` call, an
identical second call returns the same value, performs no upstream HTTP
request (it is served from the cache keyed by the argument pair), and leaves
the cache unchanged. -/
theorem C8_cached_idempotence (net : String → RateResponse) (cache : RateCache)
    (f t : String) (r : ℚ)
    (h1 : (get_exchange_rate net cache f t).1 = Except.ok r) :
    (get_exchange_rate net (get_exchange_rate net cache f t).2.1 f t).1 = Except.ok r ∧
    (get_exchange_rate net (get_exchange_rate net cache f t).2.1 f t).2.2 = 0 ∧
    (get_exchange_rate net (get_exchange_rate net cache f t).2.1 f t).2.1 =
      (get_exchange_rate net cache f t).2.1 := by
  cases halo : alookup cache (f, t) with
  | some v =>
    have hres : get_exchange_rate net cache f t = (Except.ok v, cache, 0) := by
      unfold get_exchange_rate
      simp [halo]
    rw [hres] at h1 ⊢
    simp at h1
    subst h1
    unfold get_exchange_rate
    simp [halo]
  | none =>
    cases hfr : fetch_exchange_rate net f t with
    | mk res calls =>
      cases res with
      | ok v =>
        have hres : get_exchange_rate net cache f t =
            (Except.ok v, ((f, t), v) :: cache, calls) := by
          unfold get_exchange_rate
          simp [halo, hfr]
        rw [hres] at h1 ⊢
        simp at h1
        subst h1
        unfold get_exchange_rate
        simp [alookup]
      | error e =>
        have hres : get_exchange_rate net cache f t = (Except.error e, cache, calls) := by
          unfold get_exchange_rate
          simp [halo, hfr]
        rw [hres] at h1
        simp at h1

/-- Witness for C8: a concrete upstream returning rate 2 for EUR. -/
theorem C8_cached_idempotence_witness :
    (get_exchange_rate (fun _ => RateResponse.mk 200 (some [("EUR", (2 : ℚ))]))
      (get_exchange_rate (fun _ => RateResponse.mk 200 (some [("EUR", (2 : ℚ))]))
        [] "USD" "EUR").2.1 "USD" "EUR").1 = Except.ok 2 ∧
    (get_exchange_rate (fun _ => RateResponse.mk 200 (some [("EUR", (2 : ℚ))]))
      (get_exchange_rate (fun _ => RateResponse.mk 200 (some [("EUR", (2 : ℚ))]))
        [] "USD" "EUR").2.1 "USD" "EUR").2.2 = 0 ∧
    (get_exchange_rate (fun _ => RateResponse.mk 200 (some [("EUR", (2 : ℚ))]))
      (get_exchange_rate (fun _ => RateResponse.mk 200 (some [("EUR", (2 : ℚ))]))
        [] "USD" "EUR").2.1 "USD" "EUR").2.1 =
      (get_exchange_rate (fun _ => RateResponse.mk 200 (some [("EUR", (2 : ℚ))]))
        [] "USD" "EUR").2.1 :=
  C8_cached_idempotence (fun _ => RateResponse.mk 200 (some [("EUR", (2 : ℚ))]))
    [] "USD" "EUR" 2 rfl

/-- Flag emoji helper `_flag_emoji` from `forex_service.py`: regional
indicator symbols for a 2-letter alphabetic code, `""` otherwise. -/
def flag_emoji (alpha_2 : String) : String :=
  if alpha_2.length = 2 ∧ alpha_2.data.all Char.isAlpha then
    String.mk (alpha_2.toUpper.data.map (fun c => Char.ofNat (0x1F1E6 - 65 + c.toNat)))
  else ""

/-- One entry of the supported-currency list (`{"code", "name", "emoji",
"symbol"}` dict built by `get_supported_currencies`). -/
structure CurrencyInfo where
  code : String
  name : String
  emoji : String
  symbol : String
deriving Repr, DecidableEq

/-- Entry built by one iteration of the loop in `get_supported_currencies`.
`nameTable` is the oracle for `pycountry.currencies.get(alpha_3=c)` (`none`
when pycountry knows no currency for the code); `symbolTable` is the oracle
for `babel.numbers.get_currency_symbol(c, locale="en_US")` (`none` when the
call raises; a falsy `""` result also triggers the `or`-fallback). -/
def currency_entry (nameTable symbolTable : String → Option String) (c : String) :
    CurrencyInfo :=
  let name := match nameTable c with
    | some n => n
    | none => c
  let emoji := if 2 ≤ c.length then flag_emoji (String.mk (c.data.take 2)) else ""
  let symbol := match symbolTable c with
    | some s => if s = "" then c ++ " " else s
    | none => c ++ " "
  { code := c, name := name, emoji := emoji, symbol := symbol }

/-- The loop of `get_supported_currencies` over the code list returned by
`get_supported_currency_codes`. -/
def get_supported_currencies (nameTable symbolTable : String → Option String)
    (codes : List String) : List CurrencyInfo :=
  codes.map (currency_entry nameTable symbolTable)

/-- C9: `get_supported_currencies` yields exactly one entry per upstream code
(the list is never shortened or aborted); the entry at position `i` carries
its code, falls back to the code as display name when pycountry has none, and
falls back to the code plus a trailing space as symbol when the babel lookup
fails; and changing the symbol oracle at one code never affects the entries
of other codes. -/
theorem C9_supported_currencies (nameTable symbolTable symbolTable' : String → Option String)
    (codes : List String) (i : Nat) (c : String) (hc : codes[i]? = some c) :
    (get_supported_currencies nameTable symbolTable codes).length = codes.length ∧
    (∃ e, (get_supported_currencies nameTable symbolTable codes)[i]? = some e ∧
      e.code = c ∧
      (nameTable c = none → e.name = c) ∧
      (symbolTable c = none → e.symbol = c ++ " ")) ∧
    ((∀ d, d ≠ c → symbolTable d = symbolTable' d) →
      ∀ (j : Nat) (d : String), codes[j]? = some d → d ≠ c →
        (get_supported_currencies nameTable symbolTable codes)[j]? =
          (get_supported_currencies nameTable symbolTable' codes)[j]?) := by
  refine ⟨by simp [get_supported_currencies], ?_, ?_⟩
  · refine ⟨currency_entry nameTable symbolTable c, ?_, rfl, ?_, ?_⟩
    · simp [get_supported_currencies, List.getElem?_map, hc]
    · intro hn
      simp [currency_entry, hn]
    · intro hs
      simp [currency_entry, hs]
  · intro hagree j d hd hdc
    have hsym : symbolTable d = symbolTable' d := hagree d hdc
    simp only [get_supported_currencies, List.getElem?_map, hd, Option.map_some]
    simp [currency_entry, hsym]

/-- Witness for C9 at a concrete code list and oracles. -/
theorem C9_supported_currencies_witness :
    (get_supported_currencies (fun _ => none) (fun _ => none) ["EUR", "USD"]).length = 2 ∧
    (∃ e, (get_supported_currencies (fun _ => none) (fun _ => none) ["EUR", "USD"])[0]? = some e ∧
      e.code = "EUR" ∧
      ((fun (_ : String) => (none : Option String)) "EUR" = none → e.name = "EUR") ∧
      ((fun (_ : String) => (none : Option String)) "EUR" = none → e.symbol = "EUR" ++ " ")) ∧
    ((∀ d, d ≠ "EUR" → (fun (_ : String) => (none : Option String)) d =
        (fun (_ : String) => (none : Option String)) d) →
      ∀ (j : Nat) (d : String), (["EUR", "USD"] : List String)[j]? = some d → d ≠ "EUR" →
        (get_supported_currencies (fun _ => none) (fun _ => none) ["EUR", "USD"])[j]? =
          (get_supported_currencies (fun _ => none) (fun _ => none) ["EUR", "USD"])[j]?) :=
  C9_supported_currencies (fun _ => none) (fun _ => none) (fun _ => none)
    ["EUR", "USD"] 0 "EUR" rfl

/-! ## HTTP API Layer (`src/app.py`) -/

/-- Python `str.strip()` with no argument: remove whitespace from both ends. -/
def py_strip (s : String) : String :=
  String.mk (((s.data.dropWhile Char.isWhitespace).reverse.dropWhile Char.isWhitespace).reverse)

/-- Python `str.upper()` on ASCII text (currency codes): uppercase every
character. -/
def py_upper (s : String) : String :=
  String.mk (s.data.map Char.toUpper)

/-- HTTP response of one endpoint: status code plus either the success
payload (`{"status": "success", ...}`) or the sanitized error message
(`{"status": "error", "message": msg}`). -/
structure ApiResp (α : Type) where
  status : Nat
  body : Except String α
deriving Repr

/-- Route `GET /api/exchange-rate`: reads the `from`/`to` query parameters
(absent parameters default to `""`), strips surrounding whitespace and
uppercases them, rejects empty results with a 400, and otherwise calls the
rate client, mapping `ValueError` to a 400 with the error's message. `net`
and `cache` are the upstream oracle and memoization state of
`get_exchange_rate`. -/
def exchange_rate_route (net : String → RateResponse) (cache : RateCache)
    (fromParam toParam : Option String) : ApiResp ℚ :=
  let from_currency := py_upper (py_strip (fromParam.getD ""))
  let to_currency := py_upper (py_strip (toParam.getD ""))
  if from_currency = "" ∨ to_currency = "" then
    ⟨400, Except.error "Missing \x27from\x27 or \x27to\x27 currency parameter"⟩
  else
    match (get_exchange_rate net cache from_currency to_currency).1 with
    | Except.ok rate => ⟨200, Except.ok rate⟩
    | Except.error e => ⟨400, Except.error e⟩

/-- C10: the exchange-rate route always calls the rate client on the trimmed,
uppercased query parameters (hence lowercase codes are accepted), and a
parameter that trims to the empty string — present-but-empty or
whitespace-only — yields the same 400 missing-parameter response as an absent
parameter. -/
theorem C10_exchange_rate_params (net : String → RateResponse) (cache : RateCache)
    (fp tp : Option String) :
    (py_upper (py_strip (fp.getD "")) ≠ "" → py_upper (py_strip (tp.getD "")) ≠ "" →
      exchange_rate_route net cache fp tp =
        match (get_exchange_rate net cache (py_upper (py_strip (fp.getD "")))
            (py_upper (py_strip (tp.getD "")))).1 with
        | Except.ok rate => ⟨200, Except.ok rate⟩
        | Except.error e => ⟨400, Except.error e⟩) ∧
    ((py_upper (py_strip (fp.getD "")) = "" ∨ py_upper (py_strip (tp.getD "")) = "") →
      exchange_rate_route net cache fp tp = exchange_rate_route net cache none none ∧
      (exchange_rate_route net cache fp tp).status = 400 ∧
      (exchange_rate_route net cache fp tp).body =
        Except.error "Missing \x27from\x27 or \x27to\x27 currency parameter") := by
  constructor
  · intro hf ht
    simp [exchange_rate_route, hf, ht]
  · intro hmiss
    have hroute : exchange_rate_route net cache fp tp =
        ⟨400, Except.error "Missing \x27from\x27 or \x27to\x27 currency parameter"⟩ := by
      unfold exchange_rate_route
      rcases hmiss with hf | ht
      · simp [hf]
      · simp [ht]
    refine ⟨?_, by rw [hroute], by rw [hroute]⟩
    rw [hroute]
    rfl

/-- Witness for C10: a lowercase padded `from` parameter and an uppercase
`to` parameter reach the rate client trimmed and uppercased. -/
theorem C10_exchange_rate_params_witness :
    (py_upper (py_strip ((some " usd " : Option String).getD "")) ≠ "" →
      py_upper (py_strip ((some "eur" : Option String).getD "")) ≠ "" →
      exchange_rate_route (fun _ => RateResponse.mk 200 (some [("EUR", (2 : ℚ))])) []
          (some " usd ") (some "eur") =
        match (get_exchange_rate (fun _ => RateResponse.mk 200 (some [("EUR", (2 : ℚ))])) []
            (py_upper (py_strip ((some " usd " : Option String).getD "")))
            (py_upper (py_strip ((some "eur" : Option String).getD "")))).1 with
        | Except.ok rate => ⟨200, Except.ok rate⟩
        | Except.error e => ⟨400, Except.error e⟩) ∧
    ((py_upper (py_strip ((some " usd " : Option String).getD "")) = "" ∨
        py_upper (py_strip ((some "eur" : Option String).getD "")) = "") →
      exchange_rate_route (fun _ => RateResponse.mk 200 (some [("EUR", (2 : ℚ))])) []
          (some " usd ") (some "eur") =
        exchange_rate_route (fun _ => RateResponse.mk 200 (some [("EUR", (2 : ℚ))])) []
          none none ∧
      (exchange_rate_route (fun _ => RateResponse.mk 200 (some [("EUR", (2 : ℚ))])) []
          (some " usd ") (some "eur")).status = 400 ∧
      (exchange_rate_route (fun _ => RateResponse.mk 200 (some [("EUR", (2 : ℚ))])) []
          (some " usd ") (some "eur")).body =
        Except.error "Missing \x27from\x27 or \x27to\x27 currency parameter") :=
  C10_exchange_rate_params (fun _ => RateResponse.mk 200 (some [("EUR", (2 : ℚ))])) []
    (some " usd ") (some "eur")

/-- Modelled from the spec: one dish of a translation (`MenuDish` in
`src/datamodels.py`, which is not among the sources); fields per spec §3 and
the repository tests. Only `image_urls` matters to the handler logic. -/
structure MenuDish where
  name : String
  english_name : String
  description : String
  original_text : String
  pronunciation : String
  price : String
  image_urls : Option (List String)
deriving Repr, DecidableEq

/-- Modelled from the spec: the structured result of the Menu Translation
Client (`MenuTranslation` in `src/datamodels.py`, not among the sources);
fields per spec §3 and the repository tests. -/
structure MenuTranslation where
  source_language : String
  country : Option String
  original_currency : String
  exchange_rate_to_eur : ℚ
  target_currency : String
  dishes : List MenuDish
deriving Repr, DecidableEq

/-- Outcome of `save_uploaded_image` as observed by the `/api/translate`
handler: a saved transient path, or an `ImageValidationError`. -/
inductive SaveOutcome where
  | saved (path : String)
  | invalid (msg : String)
deriving Repr, DecidableEq

/-- Outcome of `translate_menu_image` as observed by the handler: a
translation, a `TranslationError`, or any other unexpected exception. -/
inductive TranslateOutcome where
  | ok (translation : MenuTranslation)
  | translationError (msg : String)
  | unexpected (msg : String)
deriving Repr, DecidableEq

/-- Payload of a successful `/api/translate` response (the `data` object the
handler jsonifies). -/
structure TranslateData where
  source_language : String
  dishes : List MenuDish
  original_currency : String
  exchange_rate_to_eur : ℚ
  target_currency : String
deriving Repr, DecidableEq

/-- Route `POST /api/translate`: reject a request with no `image` part;
run the upload validator; on success run the translator inside
`try/except/finally`, nulling `image_urls` on every dish of a successful
translation. The second component is the list of transient paths the
`finally` block unlinks before the handler returns. -/
def translate_menu (hasImage : Bool) (save : SaveOutcome) (translate : TranslateOutcome) :
    ApiResp TranslateData × List String :=
  if ¬ hasImage then (⟨400, Except.error "No image file provided"⟩, [])
  else
    match save with
    | SaveOutcome.invalid msg => (⟨400, Except.error msg⟩, [])
    | SaveOutcome.saved image_path =>
      let response : ApiResp TranslateData :=
        match translate with
        | TranslateOutcome.ok translation =>
          ⟨200, Except.ok
            { source_language := translation.source_language
              dishes := translation.dishes.map (fun dish => { dish with image_urls := none })
              original_currency := translation.original_currency
              exchange_rate_to_eur := translation.exchange_rate_to_eur
              target_currency := translation.target_currency }⟩
        | TranslateOutcome.translationError e =>
          ⟨500, Except.error ("Translation failed: " ++ e)⟩
        | TranslateOutcome.unexpected _ =>
          ⟨500, Except.error "An unexpected error occurred during translation"⟩
      (response, [image_path])

/-- C3: whenever the upload validator returned a saved path, the handler
unlinks that transient path on every exit path — successful translation,
`TranslationError`, and any unexpected exception. -/
theorem C3_upload_always_deleted (path : String) (translate : TranslateOutcome) :
    (translate_menu true (SaveOutcome.saved path) translate).2 = [path] := by
  cases translate <;> simp [translate_menu]

/-- C4: a successful `/api/translate` response carries one dish per dish of
the translation, and every dish in the response has a null `image_urls`
field, whatever the translator put there. -/
theorem C4_translate_strips_images (path : String) (translation : MenuTranslation) :
    ∃ data, translate_menu true (SaveOutcome.saved path) (TranslateOutcome.ok translation) =
      (⟨200, Except.ok data⟩, [path]) ∧
      data.dishes.length = translation.dishes.length ∧
      ∀ d ∈ data.dishes, d.image_urls = none := by
  refine ⟨{ source_language := translation.source_language
            dishes := translation.dishes.map (fun dish => { dish with image_urls := none })
            original_currency := translation.original_currency
            exchange_rate_to_eur := translation.exchange_rate_to_eur
            target_currency := translation.target_currency },
    by simp [translate_menu], by simp, ?_⟩
  intro d hd
  simp only [List.mem_map] at hd
  obtain ⟨d0, _, rfl⟩ := hd
  rfl

/-! ### `POST /api/fetch-images` -/

/-- One element of the `dishes` array of the `/api/fetch-images` request
body: `dish.get("name")` yields `none` when the key is missing. -/
structure DishReq where
  name : Option String
deriving Repr, DecidableEq

/-- Python `dish_name.replace(" ", "+")`: every space becomes a plus sign. -/
def py_replace_space_plus (s : String) : String :=
  String.mk (s.data.map (fun c => if c = ' ' then '+' else c))

/-- Placeholder URL substituted when the search returns no results. -/
def placeholder_url (dish_name : String) : String :=
  "https://via.placeholder.com/400x300?text=" ++ py_replace_space_plus dish_name

/-- The per-dish loop of `fetch_images`: `search` is the oracle for
`cached_brave_search(dish_name, language, BRAVE_API_KEY)` (`Except.error`
models a raised `ImageSearchError`). Returns the final `images_data` dict
and the list of dish names actually sent to the search client. -/
def fetch_images_go (search : String → String → Except String (List String))
    (language : String) :
    List DishReq → List (String × Option (List String)) →
    List (String × Option (List String)) × List String
  | [], images_data => (images_data, [])
  | dish :: rest, images_data =>
    match dish.name with
    | none => fetch_images_go search language rest images_data
    | some dish_name =>
      if dish_name = "" then fetch_images_go search language rest images_data
      else
        let images_data' :=
          match search dish_name language with
          | Except.ok search_results =>
            if search_results.isEmpty then
              dictInsert images_data dish_name (some [placeholder_url dish_name])
            else
              dictInsert images_data dish_name (some search_results)
          | Except.error _ => dictInsert images_data dish_name none
        let next := fetch_images_go search language rest images_data'
        (next.1, dish_name :: next.2)

/-- The dict comprehension of the `include_images: false` fast path:
`{dish.get("name"): None for dish in dishes if dish.get("name")}`. -/
def no_images_map (dishes : List DishReq) : List (String × Option (List String)) :=
  dishes.foldl (fun m dish =>
    match dish.name with
    | some n => if n = "" then m else dictInsert m n none
    | none => m) []

/-- Route `POST /api/fetch-images` after JSON-body validation: the response
plus the list of dish names queried against the search client. -/
def fetch_images_route (search : String → String → Except String (List String))
    (dishes : List DishReq) (language : String) (include_images : Bool) :
    ApiResp (List (String × Option (List String))) × List String :=
  if ¬ include_images then
    (⟨200, Except.ok (no_images_map dishes)⟩, [])
  else
    let result := fetch_images_go search language dishes []
    (⟨200, Except.ok result.1⟩, result.2)

/-- Value `fetch_images_go` stores for a named dish, as a function of the
search oracle alone: results, placeholder on an empty result list, or `None`
on `ImageSearchError`. -/
def entry_for (search : String → String → Except String (List String))
    (language dish_name : String) : Option (List String) :=
  match search dish_name language with
  | Except.ok search_results =>
    if search_results.isEmpty then some [placeholder_url dish_name]
    else some search_results
  | Except.error _ => none

theorem fetch_images_go_cons_skip (search : String → String → Except String (List String))
    (language : String) (dish : DishReq) (rest : List DishReq)
    (acc : List (String × Option (List String)))
    (h : dish.name = none ∨ dish.name = some "") :
    fetch_images_go search language (dish :: rest) acc =
      fetch_images_go search language rest acc := by
  rcases h with h | h <;> simp [fetch_images_go, h]

theorem fetch_images_go_cons_named (search : String → String → Except String (List String))
    (language : String) (dish : DishReq) (rest : List DishReq)
    (acc : List (String × Option (List String))) (m : String)
    (hname : dish.name = some m) (hm : m ≠ "") :
    fetch_images_go search language (dish :: rest) acc =
      ((fetch_images_go search language rest
          (dictInsert acc m (entry_for search language m))).1,
        m :: (fetch_images_go search language rest
          (dictInsert acc m (entry_for search language m))).2) := by
  simp only [fetch_images_go, hname, if_neg hm]
  cases hs : search m language with
  | ok rs =>
    by_cases he : rs.isEmpty <;> simp [entry_for, hs, he]
  | error e => simp [entry_for, hs]

theorem fetch_images_go_lookup (search : String → String → Except String (List String))
    (language n : String) (hn : n ≠ "") :
    ∀ (dishes : List DishReq) (acc : List (String × Option (List String))),
      ((∃ d ∈ dishes, d.name = some n) ∨ alookup acc n = some (entry_for search language n)) →
      alookup (fetch_images_go search language dishes acc).1 n =
        some (entry_for search language n) := by
  intro dishes
  induction dishes with
  | nil =>
    intro acc h
    rcases h with ⟨d, hd, _⟩ | hacc
    · simp at hd
    · simpa [fetch_images_go] using hacc
  | cons dish rest ih =>
    intro acc h
    have hstep : (∃ d ∈ rest, d.name = some n) ∨
        (dish.name = some n) ∨ alookup acc n = some (entry_for search language n) := by
      rcases h with ⟨d, hd, hdn⟩ | hacc
      · rcases List.mem_cons.mp hd with rfl | hdrest
        · exact Or.inr (Or.inl hdn)
        · exact Or.inl ⟨d, hdrest, hdn⟩
      · exact Or.inr (Or.inr hacc)
    cases hname : dish.name with
    | none =>
      rw [fetch_images_go_cons_skip search language dish rest acc (Or.inl hname)]
      apply ih
      rcases hstep with hrest | hdish | hacc
      · exact Or.inl hrest
      · rw [hname] at hdish; cases hdish
      · exact Or.inr hacc
    | some m =>
      by_cases hm : m = ""
      · subst hm
        rw [fetch_images_go_cons_skip search language dish rest acc (Or.inr hname)]
        apply ih
        rcases hstep with hrest | hdish | hacc
        · exact Or.inl hrest
        · rw [hname] at hdish
          cases hdish
          exact absurd rfl hn
        · exact Or.inr hacc
      · rw [fetch_images_go_cons_named search language dish rest acc m hname hm]
        apply ih
        by_cases hmn : m = n
        · subst hmn
          exact Or.inr (alookup_dictInsert_self _ _ _)
        · have hnm : n ≠ m := fun hc => hmn hc.symm
          rcases hstep with hrest | hdish | hacc
          · exact Or.inl hrest
          · rw [hname] at hdish
            cases hdish
            exact absurd rfl hmn
          · exact Or.inr (by rw [alookup_dictInsert_ne acc m n _ hnm]; exact hacc)

theorem fetch_images_go_agree (s s' : String → String → Except String (List String))
    (language target : String)
    (hagree : ∀ m, m ≠ target → s m language = s' m language) :
    ∀ (dishes : List DishReq) (acc acc' : List (String × Option (List String))),
      (∀ k, k ≠ target → alookup acc k = alookup acc' k) →
      ∀ k, k ≠ target →
        alookup (fetch_images_go s language dishes acc).1 k =
          alookup (fetch_images_go s' language dishes acc').1 k := by
  intro dishes
  induction dishes with
  | nil =>
    intro acc acc' hacc k hk
    simpa [fetch_images_go] using hacc k hk
  | cons dish rest ih =>
    intro acc acc' hacc k hk
    cases hname : dish.name with
    | none =>
      rw [fetch_images_go_cons_skip s language dish rest acc (Or.inl hname),
        fetch_images_go_cons_skip s' language dish rest acc' (Or.inl hname)]
      exact ih acc acc' hacc k hk
    | some m =>
      by_cases hm : m = ""
      · subst hm
        rw [fetch_images_go_cons_skip s language dish rest acc (Or.inr hname),
          fetch_images_go_cons_skip s' language dish rest acc' (Or.inr hname)]
        exact ih acc acc' hacc k hk
      · rw [fetch_images_go_cons_named s language dish rest acc m hname hm,
          fetch_images_go_cons_named s' language dish rest acc' m hname hm]
        apply ih _ _ ?_ k hk
        intro k' hk'
        by_cases hkm : k' = m
        · subst hkm
          rw [alookup_dictInsert_self, alookup_dictInsert_self]
          have hmt : k' ≠ target := hk'
          unfold entry_for
          rw [hagree k' hmt]
        · rw [alookup_dictInsert_ne acc m k' _ hkm, alookup_dictInsert_ne acc' m k' _ hkm]
          exact hacc k' hk'

theorem no_images_fold_lookup (n : String) (hn : n ≠ "") :
    ∀ (dishes : List DishReq) (acc : List (String × Option (List String))),
      ((∃ d ∈ dishes, d.name = some n) ∨ alookup acc n = some none) →
      alookup (dishes.foldl (fun m dish =>
        match dish.name with
        | some k => if k = "" then m else dictInsert m k none
        | none => m) acc) n = some none := by
  intro dishes
  induction dishes with
  | nil =>
    intro acc h
    rcases h with ⟨d, hd, _⟩ | hacc
    · simp at hd
    · simpa using hacc
  | cons dish rest ih =>
    intro acc h
    have hstep : (∃ d ∈ rest, d.name = some n) ∨
        (dish.name = some n) ∨ alookup acc n = some none := by
      rcases h with ⟨d, hd, hdn⟩ | hacc
      · rcases List.mem_cons.mp hd with rfl | hdrest
        · exact Or.inr (Or.inl hdn)
        · exact Or.inl ⟨d, hdrest, hdn⟩
      · exact Or.inr (Or.inr hacc)
    rw [List.foldl_cons]
    cases hname : dish.name with
    | none =>
      simp only [hname]
      apply ih
      rcases hstep with hrest | hdish | hacc
      · exact Or.inl hrest
      · rw [hname] at hdish; cases hdish
      · exact Or.inr hacc
    | some m =>
      by_cases hm : m = ""
      · subst hm
        simp only [hname, if_pos rfl]
        apply ih
        rcases hstep with hrest | hdish | hacc
        · exact Or.inl hrest
        · rw [hname] at hdish
          cases hdish
          exact absurd rfl hn
        · exact Or.inr hacc
      · simp only [hname, if_neg hm]
        apply ih
        by_cases hmn : m = n
        · subst hmn
          exact Or.inr (alookup_dictInsert_self _ _ _)
        · have hnm : n ≠ m := fun hc => hmn hc.symm
          rcases hstep with hrest | hdish | hacc
          · exact Or.inl hrest
          · rw [hname] at hdish
            cases hdish
            exact absurd rfl hmn
          · exact Or.inr (by rw [alookup_dictInsert_ne acc m n _ hnm]; exact hacc)

/-- C5: with `include_images: false`, the response is computed without ever
invoking the search client — it is identical for any two search-client
behaviors (and any two languages), the list of issued search queries is
empty, the request succeeds, and every dish with a non-empty name is mapped
to null. -/
theorem C5_include_images_false (s s' : String → String → Except String (List String))
    (dishes : List DishReq) (language language' : String) :
    fetch_images_route s dishes language false = fetch_images_route s' dishes language' false ∧
    (fetch_images_route s dishes language false).2 = [] ∧
    (fetch_images_route s dishes language false).1.status = 200 ∧
    (∀ d ∈ dishes, ∀ n, d.name = some n → n ≠ "" →
      ∃ imgs, (fetch_images_route s dishes language false).1.body = Except.ok imgs ∧
        alookup imgs n = some none) := by
  refine ⟨rfl, rfl, rfl, ?_⟩
  intro d hd n hdn hn
  refine ⟨no_images_map dishes, rfl, ?_⟩
  exact no_images_fold_lookup n hn dishes [] (Or.inl ⟨d, hd, hdn⟩)

/-- C6: when the search client raises `ImageSearchError` for one dish, the
request still succeeds, that dish's name is mapped to null, and the entries
under every other name are exactly what they would have been with a search
client that only differs on the failing name. -/
theorem C6_search_error_isolated (s s' : String → String → Except String (List String))
    (language target : String) (dishes : List DishReq) (e : String)
    (hagree : ∀ m, m ≠ target → s m language = s' m language)
    (herr : s target language = Except.error e)
    (hmem : ∃ d ∈ dishes, d.name = some target)
    (htne : target ≠ "") :
    (fetch_images_route s dishes language true).1.status = 200 ∧
    (∃ imgs, (fetch_images_route s dishes language true).1.body = Except.ok imgs ∧
      alookup imgs target = some none) ∧
    (∀ k, k ≠ target →
      ∃ imgs imgs',
        (fetch_images_route s dishes language true).1.body = Except.ok imgs ∧
        (fetch_images_route s' dishes language true).1.body = Except.ok imgs' ∧
        alookup imgs k = alookup imgs' k) := by
  refine ⟨rfl, ?_, ?_⟩
  · refine ⟨(fetch_images_go s language dishes []).1, rfl, ?_⟩
    have hent : entry_for s language target = none := by simp [entry_for, herr]
    have hlook := fetch_images_go_lookup s language target htne dishes [] (Or.inl hmem)
    rw [hent] at hlook
    exact hlook
  · intro k hk
    refine ⟨(fetch_images_go s language dishes []).1,
      (fetch_images_go s' language dishes []).1, rfl, rfl, ?_⟩
    exact fetch_images_go_agree s s' language target hagree dishes [] []
      (fun _ _ => rfl) k hk

/-- Witness for C6: two dishes, the search fails on "Sushi" under the first
client and succeeds under the second; the Paella entry is unaffected. -/
theorem C6_search_error_isolated_witness :
    (fetch_images_route
      (fun name _ => if name = "Sushi" then Except.error "boom" else Except.ok ["u"])
      [⟨some "Paella"⟩, ⟨some "Sushi"⟩] "English" true).1.status = 200 ∧
    (∃ imgs, (fetch_images_route
        (fun name _ => if name = "Sushi" then Except.error "boom" else Except.ok ["u"])
        [⟨some "Paella"⟩, ⟨some "Sushi"⟩] "English" true).1.body = Except.ok imgs ∧
      alookup imgs "Sushi" = some none) ∧
    (∀ k, k ≠ "Sushi" →
      ∃ imgs imgs',
        (fetch_images_route
          (fun name _ => if name = "Sushi" then Except.error "boom" else Except.ok ["u"])
          [⟨some "Paella"⟩, ⟨some "Sushi"⟩] "English" true).1.body = Except.ok imgs ∧
        (fetch_images_route
          (fun name _ => if name = "Sushi" then Except.ok ["x"] else Except.ok ["u"])
          [⟨some "Paella"⟩, ⟨some "Sushi"⟩] "English" true).1.body = Except.ok imgs' ∧
        alookup imgs k = alookup imgs' k) :=
  C6_search_error_isolated
    (fun name _ => if name = "Sushi" then Except.error "boom" else Except.ok ["u"])
    (fun name _ => if name = "Sushi" then Except.ok ["x"] else Except.ok ["u"])
    "English" "Sushi" [⟨some "Paella"⟩, ⟨some "Sushi"⟩] "boom"
    (by intro m hm; simp [hm]) rfl ⟨⟨some "Sushi"⟩, by simp, rfl⟩ (by decide)

theorem fetch_images_go_skip_anywhere (s : String → String → Except String (List String))
    (language : String) (d : DishReq) (hskip : d.name = none ∨ d.name = some "") :
    ∀ (pre post : List DishReq) (acc : List (String × Option (List String))),
      fetch_images_go s language (pre ++ d :: post) acc =
        fetch_images_go s language (pre ++ post) acc := by
  intro pre
  induction pre with
  | nil =>
    intro post acc
    exact fetch_images_go_cons_skip s language d post acc hskip
  | cons dish rest ih =>
    intro post acc
    cases hname : dish.name with
    | none =>
      rw [List.cons_append, List.cons_append,
        fetch_images_go_cons_skip s language dish _ acc (Or.inl hname),
        fetch_images_go_cons_skip s language dish _ acc (Or.inl hname)]
      exact ih post acc
    | some m =>
      by_cases hm : m = ""
      · subst hm
        rw [List.cons_append, List.cons_append,
          fetch_images_go_cons_skip s language dish _ acc (Or.inr hname),
          fetch_images_go_cons_skip s language dish _ acc (Or.inr hname)]
        exact ih post acc
      · rw [List.cons_append, List.cons_append,
          fetch_images_go_cons_named s language dish _ acc m hname hm,
          fetch_images_go_cons_named s language dish _ acc m hname hm,
          ih post _]

/-- C7: a dish whose search returns an empty result list is mapped to a
single-element list holding the placeholder URL built from the dish's name
with every space replaced by a plus sign, and a dish with a missing or empty
name, wherever it sits in the batch, is skipped entirely — it contributes
neither an entry nor a query. -/
theorem C7_empty_results_placeholder (s : String → String → Except String (List String))
    (language n : String) (dishes : List DishReq)
    (hn : n ≠ "") (hmem : ∃ d ∈ dishes, d.name = some n)
    (hempty : s n language = Except.ok []) :
    (∃ imgs, (fetch_images_route s dishes language true).1.body = Except.ok imgs ∧
      alookup imgs n =
        some (some ["https://via.placeholder.com/400x300?text=" ++ py_replace_space_plus n])) ∧
    (∀ (pre post : List DishReq) (d : DishReq), d.name = none ∨ d.name = some "" →
      fetch_images_route s (pre ++ d :: post) language true =
        fetch_images_route s (pre ++ post) language true) := by
  constructor
  · refine ⟨(fetch_images_go s language dishes []).1, rfl, ?_⟩
    have hent : entry_for s language n = some [placeholder_url n] := by
      simp [entry_for, hempty]
    have hlook := fetch_images_go_lookup s language n hn dishes [] (Or.inl hmem)
    rw [hent] at hlook
    simpa [placeholder_url] using hlook
  · intro pre post d hskip
    have hgo : fetch_images_go s language (pre ++ d :: post) [] =
        fetch_images_go s language (pre ++ post) [] :=
      fetch_images_go_skip_anywhere s language d hskip pre post []
    simp [fetch_images_route, hgo]

/-- Witness for C7: the search returns no results for "Pa ella"; its entry
is the single placeholder URL with the space turned into a plus, and the
skip clause holds at the same instantiation. -/
theorem C7_empty_results_placeholder_witness :
    (∃ imgs, (fetch_images_route (fun _ _ => Except.ok []) [⟨some "Pa ella"⟩]
        "Spanish" true).1.body = Except.ok imgs ∧
      alookup imgs "Pa ella" =
        some (some ["https://via.placeholder.com/400x300?text=" ++
          py_replace_space_plus "Pa ella"])) ∧
    (∀ (pre post : List DishReq) (d : DishReq), d.name = none ∨ d.name = some "" →
      fetch_images_route (fun _ _ => Except.ok []) (pre ++ d :: post) "Spanish" true =
        fetch_images_route (fun _ _ => Except.ok []) (pre ++ post) "Spanish" true) :=
  C7_empty_results_placeholder (fun _ _ => Except.ok []) "Spanish" "Pa ella"
    [⟨some "Pa ella"⟩] (by decide) ⟨⟨some "Pa ella"⟩, by simp, rfl⟩ rfl

end Menu
